import Mathlib

/-!
Verification of the MultiWikiServer HTTP engine (`packages/server/src`).

This file gives a shallow embedding of the request/response machinery of
`streamer.ts`, `listeners.ts` and `index.ts` and proves properties of it.
JavaScript strings are modelled as Lean `String`, JavaScript objects used as
string maps are modelled as association lists (`List (String × _)`), and
thrown exceptions are modelled with `Except` / explicit result inductives.
-/

set_option maxRecDepth 4096

/-- Decidable equality for `Except`, used to evaluate the models on concrete
inputs. -/
instance {ε α : Type} [DecidableEq ε] [DecidableEq α] : DecidableEq (Except ε α) := fun x y =>
  match x, y with
  | .ok a, .ok b =>
    if h : a = b then .isTrue (by rw [h]) else .isFalse (fun hc => by cases hc; exact h rfl)
  | .error a, .error b =>
    if h : a = b then .isTrue (by rw [h]) else .isFalse (fun hc => by cases hc; exact h rfl)
  | .ok _, .error _ => .isFalse (fun hc => by cases hc)
  | .error _, .ok _ => .isFalse (fun hc => by cases hc)

/-! Section: JavaScript string / object primitives -/

/-- Association-list lookup by key (JavaScript object property read). -/
def alookup {β : Type} (k : String) : List (String × β) → Option β
  | [] => none
  | kv :: t => if kv.1 = k then some kv.2 else alookup k t

/-- JavaScript object property write `m[k] = v`: if the key exists its value is
updated in place (keeping the key position), otherwise the key is appended. -/
def jsSetProp {β : Type} (m : List (String × β)) (k : String) (v : β) : List (String × β) :=
  if (alookup k m).isSome then
    m.map (fun kv => if kv.1 = k then (k, v) else kv)
  else m ++ [(k, v)]

/-- Model of `Object.assign(n, e)`: every own property of `e` is written onto `n` in order. -/
def jsAssign {β : Type} (n e : List (String × β)) : List (String × β) :=
  e.foldl (fun acc kv => jsSetProp acc kv.1 kv.2) n

/-- First `some` of two options (JavaScript property shadowing). -/
def firstSome {β : Type} (a b : Option β) : Option β :=
  match a with
  | some v => some v
  | none => b

/-- Boolean list-prefix test. -/
def listIsPrefix {α : Type} [DecidableEq α] : List α → List α → Bool
  | [], _ => true
  | _ :: _, [] => false
  | a :: as, b :: bs => if a = b then listIsPrefix as bs else false

/-- JavaScript `String.prototype.startsWith`. -/
def jsStartsWith (s p : String) : Bool := listIsPrefix p.data s.data

/-- JavaScript `String.prototype.slice(n)` (slice from index `n` to the end). -/
def jsSliceFrom (s : String) (n : Nat) : String := String.mk (s.data.drop n)

/-- Boolean list-infix test. -/
def listIsInfix {α : Type} [DecidableEq α] (p : List α) : List α → Bool
  | [] => p.isEmpty
  | a :: t => listIsPrefix p (a :: t) || listIsInfix p t

/-- JavaScript `String.prototype.includes`. -/
def containsSubstr (s pat : String) : Bool := listIsInfix pat.data s.data

/-- Lower-case every character (ASCII case folding of header tokens). -/
def toLowerStr (s : String) : String := String.mk (s.data.map Char.toLower)

/-! Section: Percent coding (`decodeURIComponent` / `encodeURIComponent`) -/

/-- Value of a hexadecimal digit character. -/
def hexVal (c : Char) : Option Nat :=
  if c.isDigit then some (c.toNat - 48)
  else if 65 ≤ c.toNat ∧ c.toNat ≤ 70 then some (c.toNat - 55)
  else if 97 ≤ c.toNat ∧ c.toNat ≤ 102 then some (c.toNat - 87)
  else none

/-- UTF-8 byte sequence of a character. -/
def utf8Bytes (c : Char) : List Nat :=
  let n := c.toNat
  if n < 0x80 then [n]
  else if n < 0x800 then [0xC0 + n / 64, 0x80 + n % 64]
  else if n < 0x10000 then [0xE0 + n / 4096, 0x80 + (n / 64) % 64, 0x80 + n % 64]
  else [0xF0 + n / 262144, 0x80 + (n / 4096) % 64, 0x80 + (n / 64) % 64, 0x80 + n % 64]

/-- Turn a percent-encoded character sequence into the byte sequence it denotes;
`none` on a malformed `%` escape (JavaScript throws `URIError`). -/
def percentBytes : List Char → Option (List Nat)
  | [] => some []
  | '%' :: a :: b :: rest =>
    match hexVal a, hexVal b, percentBytes rest with
    | some ha, some hb, some bs => some ((16 * ha + hb) :: bs)
    | _, _, _ => none
  | '%' :: _ => none
  | c :: rest =>
    match percentBytes rest with
    | some bs => some (utf8Bytes c ++ bs)
    | none => none

/-- Is `b` a UTF-8 continuation byte? -/
def isContByte (b : Nat) : Bool := 0x80 ≤ b && b < 0xC0

/-- Decode a UTF-8 byte sequence; `none` on a malformed sequence. -/
def utf8Decode : List Nat → Option (List Char)
  | [] => some []
  | b1 :: rest =>
    if b1 < 0x80 then
      match utf8Decode rest with
      | some cs => some (Char.ofNat b1 :: cs)
      | none => none
    else if b1 < 0xC2 then none
    else if b1 < 0xE0 then
      match rest with
      | b2 :: rest2 =>
        if isContByte b2 then
          match utf8Decode rest2 with
          | some cs => some (Char.ofNat ((b1 - 0xC0) * 64 + (b2 - 0x80)) :: cs)
          | none => none
        else none
      | [] => none
    else if b1 < 0xF0 then
      match rest with
      | b2 :: b3 :: rest3 =>
        if isContByte b2 && isContByte b3 then
          match utf8Decode rest3 with
          | some cs => some (Char.ofNat ((b1 - 0xE0) * 4096 + (b2 - 0x80) * 64 + (b3 - 0x80)) :: cs)
          | none => none
        else none
      | _ => none
    else if b1 < 0xF5 then
      match rest with
      | b2 :: b3 :: b4 :: rest4 =>
        if isContByte b2 && isContByte b3 && isContByte b4 then
          match utf8Decode rest4 with
          | some cs =>
            some (Char.ofNat ((b1 - 0xF0) * 262144 + (b2 - 0x80) * 4096 + (b3 - 0x80) * 64 + (b4 - 0x80)) :: cs)
          | none => none
        else none
      | _ => none
    else none

/-- JavaScript `decodeURIComponent`; `none` models a thrown `URIError`. -/
def decodeURIComponentJS (s : String) : Option String :=
  match percentBytes s.data with
  | some bs =>
    match utf8Decode bs with
    | some cs => some (String.mk cs)
    | none => none
  | none => none

/-- Upper-case hexadecimal digit character of `n < 16`. -/
def hexDigitUpper (n : Nat) : Char :=
  if n < 10 then Char.ofNat (48 + n) else Char.ofNat (55 + n)

/-- Percent escape `%XX` of one byte. -/
def percentEncodeByte (b : Nat) : List Char :=
  ['%', hexDigitUpper (b / 16), hexDigitUpper (b % 16)]

/-- Characters `encodeURIComponent` leaves unescaped. -/
def isUnreservedURI (c : Char) : Bool :=
  c.isAlpha || c.isDigit || c == '-' || c == '_' || c == '.' || c == '!' ||
    c == '~' || c == '*' || c == Char.ofNat 39 || c == '(' || c == ')'

/-- JavaScript `encodeURIComponent`. -/
def encodeURIComponentJS (s : String) : String :=
  String.mk (s.data.foldr
    (fun c acc =>
      (if isUnreservedURI c then [c]
       else (utf8Bytes c).foldr (fun b a => percentEncodeByte b ++ a) []) ++ acc)
    [])

/-! Section: `Streamer.parseRequest` (streamer.ts lines 64-101) -/

/-- Possible outcomes of `Streamer.parseRequest`. A thrown `STREAM_ENDED` after
`res.writeHead(302, ...)` is `redirect`; after `res.writeHead(500, ...).end(body)`
it is `refuse`; `thrown` models `throw new Error(...)`. -/
inductive ParseOutcome where
  | redirect (status : Nat) (location : String)
  | refuse (status : Nat) (body : String)
  | proceed (url : String)
  | thrown (msg : String)
deriving DecidableEq

/-- Body of the 500 response for a request outside the configured path prefix. -/
def refusalBody (pathPrefix : String) : String :=
  "The server is setup with a path prefix " ++ pathPrefix ++
    ", but this request is outside of that prefix."

/-- The checks of `parseRequest` that follow the path-prefix handling:
`host` and `method` must be present (else `throw new Error`). -/
def parseRequestRest (u host method : String) : ParseOutcome :=
  if host = "" then .thrown "This should never happen"
  else if method = "" then .thrown "This should never happen"
  else .proceed u

/-- Model of `Streamer.parseRequest`, specialised to the data the claims are about:
the raw request URL, the configured path prefix, and the resolved host and
method. The early `throw new Error` branches of the source appear here as
`else`-branches producing `thrown`. -/
def parseRequest (url pathPrefix host method : String) : ParseOutcome :=
  if jsStartsWith url "/" then
    if pathPrefix ≠ "" then
      if url = pathPrefix then .redirect 302 (url ++ "/")
      else if jsStartsWith url pathPrefix then
        parseRequestRest (jsSliceFrom url pathPrefix.length) host method
      else .refuse 500 (refusalBody pathPrefix)
    else parseRequestRest url host method
  else .thrown "This should never happen"

/-! Section: Response state machine (`writeHead` / header discipline / senders) -/

/-- Encodings (`NodeJS.BufferEncoding`) used by the senders. -/
inductive BufferEncoding where
  | utf8
  | latin1
  | utf16le
deriving DecidableEq

/-- UTF-16 code units of a character (JavaScript `string.length` counts these). -/
def utf16Units (c : Char) : Nat := if c.toNat < 0x10000 then 1 else 2

/-- Model of `Buffer.byteLength(data, encoding)`. -/
def byteLength (s : String) : BufferEncoding → Nat
  | .utf8 => s.data.foldl (fun n c => n + c.utf8Size) 0
  | .latin1 => s.data.foldl (fun n c => n + utf16Units c) 0
  | .utf16le => 2 * s.data.foldl (fun n c => n + utf16Units c) 0

/-- A header value stored on the Node response (string or array of strings). -/
inductive HeaderVal where
  | str (s : String)
  | arr (ss : List String)
deriving DecidableEq

/-- State of the underlying Node `ServerResponse` / `Http2ServerResponse`. -/
structure ResState where
  headersSent : Bool
  wireStatus : Option Nat
  wireHeaderWrites : Nat
  headers : List (String × HeaderVal)
  body : List (String × BufferEncoding)
  ended : Bool
deriving DecidableEq

/-- Node error raised when sending headers or setting them after they were sent. -/
def headersSentErrMsg : String := "ERR_HTTP_HEADERS_SENT"

/-- Message of the error object `Streamer` stores as the first header-send site. -/
def firstAttemptMsg : String :=
  "You appear to be sending headers more than once. The first attempt was here. Does it need to throw or return?"

/-- Message logged on the second attempt to send headers. -/
def secondAttemptMsg : String :=
  "This is the second attempt to send headers. Was it supposed to happen?"

/-- Message logged when headers were sent but no call site was recorded. -/
def unknownSourceMsg : String := "Headers were sent by an unknown source."

/-- Per-request `Streamer` state: the Node response plus the recorded
first header-send call site and the console log. -/
structure StreamerState where
  res : ResState
  headersSentBy : Option String
  log : List String
deriving DecidableEq

/-- Model of `Streamer.checkHeadersSentBy` (streamer.ts lines 304-312): logs the recorded
first call site and a second-attempt error when headers were already sent, or
records the current site as the (possible) first attempt. -/
def checkHeadersSentBy (s : StreamerState) : StreamerState :=
  if s.res.headersSent && s.headersSentBy.isSome then
    { s with log := s.log ++ [s.headersSentBy.getD "", secondAttemptMsg] }
  else if s.res.headersSent then
    { s with log := s.log ++ [unknownSourceMsg] }
  else
    { s with headersSentBy := some firstAttemptMsg }

/-- Node `response.setHeader`: replaces the value for the name; throws
`ERR_HTTP_HEADERS_SENT` once headers have been sent. -/
def resSetHeader (res : ResState) (k : String) (v : String) : Except String ResState :=
  if res.headersSent then .error headersSentErrMsg
  else .ok { res with headers := jsSetProp res.headers k (.str v) }

/-- The `Object.entries(headers).forEach(... setHeader ...)` loop of
`Streamer.writeHead` (non-null values only; `${v}` is already a string here). -/
def setHeadersLoop (res : ResState) : List (String × String) → Except String ResState
  | [] => .ok res
  | (k, v) :: rest =>
    match resSetHeader res k v with
    | .error e => .error e
    | .ok res2 => setHeadersLoop res2 rest

/-- The headers map after writing every `(k, v)` of `hs` with `setHeader`. -/
def setAll (m : List (String × HeaderVal)) (hs : List (String × String)) : List (String × HeaderVal) :=
  hs.foldl (fun acc kv => jsSetProp acc kv.1 (.str kv.2)) m

/-- Node `response.writeHead`: sends the status line and headers once; throws
`ERR_HTTP_HEADERS_SENT` on a second call. -/
def resWriteHead (res : ResState) (status : Nat) : Except String ResState :=
  if res.headersSent then .error headersSentErrMsg
  else .ok { res with headersSent := true, wireStatus := some status,
                      wireHeaderWrites := res.wireHeaderWrites + 1 }

/-- Node `writable.end(chunk?)`: ends the stream, writing the final chunk. -/
def resEnd (res : ResState) (chunk : Option (String × BufferEncoding)) : Except String ResState :=
  if res.ended then .error "write after end"
  else .ok { res with ended := true, body := res.body ++ chunk.toList }

/-- Result of `Streamer.writeHead`: normal return or a propagated exception
(the state is kept on `threw` so the log remains observable). -/
inductive WHResult where
  | ok (s : StreamerState)
  | threw (e : String) (s : StreamerState)
deriving DecidableEq

/-- Model of `Streamer.writeHead` (streamer.ts lines 706-718): runs `checkHeadersSentBy`,
copies each non-null header through `setHeader`, then calls the Node
`writeHead`. The compressor is `undefined` in the source (its construction is
commented out), so `compressor?.beforeWriteHead()` is a no-op. -/
def Streamer.writeHead (s : StreamerState) (status : Nat) (headers : List (String × String)) : WHResult :=
  let s1 := checkHeadersSentBy s
  match setHeadersLoop s1.res headers with
  | .error e => .threw e s1
  | .ok res2 =>
    match resWriteHead res2 status with
    | .error e => .threw e { s1 with res := res2 }
    | .ok res3 => .ok { s1 with res := res3 }

/-- Result of a sender: the `STREAM_ENDED` sentinel, or a propagated exception. -/
inductive SendResult where
  | streamEnded (s : StreamerState)
  | threw (e : String) (s : StreamerState)
deriving DecidableEq

/-- Model of `Streamer.sendString` (streamer.ts lines 332-345): sets `content-length` on
the headers object, writes head, then ends the response with the body (omitted
for `HEAD`). The `writer` getter returns the raw response here because the
compressor is `undefined`. -/
def Streamer.sendString (s : StreamerState) (method : String) (status : Nat)
    (headers : List (String × String)) (data : String) (enc : BufferEncoding) : SendResult :=
  let headers2 := jsSetProp headers "content-length" (toString (byteLength data enc))
  match Streamer.writeHead s status headers2 with
  | .threw e s2 => .threw e s2
  | .ok s2 =>
    match resEnd s2.res (if method = "HEAD" then none else some (data, enc)) with
    | .error e => .threw e s2
    | .ok res2 => .streamEnded { s2 with res := res2 }

/-- A fresh Node response. -/
def initRes : ResState :=
  { headersSent := false, wireStatus := none, wireHeaderWrites := 0,
    headers := [], body := [], ended := false }

/-- A fresh `Streamer` response-side state. -/
def initStreamer : StreamerState :=
  { res := initRes, headersSentBy := none, log := [] }

/-! Section: Path parameters (`Streamer` constructor, streamer.ts lines 193-197) -/

/-- A matched route node paired with the named captures it contributed. -/
structure RouteMatch where
  groups : List (String × String)
deriving DecidableEq

/-- Model of `routePath.reduce((n, e) => Object.assign(n, e.groups), \x7b\x7d)`. -/
def rawPathParams (routePath : List RouteMatch) : List (String × String) :=
  routePath.foldl (fun n e => jsAssign n e.groups) []

/-- The capture for `name` contributed by the innermost (leaf-most) node of the
matched path that captures it. -/
def innermostLookup (name : String) : List RouteMatch → Option String
  | [] => none
  | m :: rest =>
    match innermostLookup name rest with
    | some v => some v
    | none => alookup name m.groups

/-- Modelled from the spec: `zodDecodeURIComponent` lives in the server
package's `utils.ts`, which is not among the provided sources; per the spec
("pathParams are parsed with `decodeURIComponent` one time") it applies
JavaScript's `decodeURIComponent` to the value exactly once, failing the zod
check instead of throwing on a malformed escape. -/
def zodDecodeURIComponent (s : String) : Option String := decodeURIComponentJS s

/-- The zod record transform over all path parameters: succeeds only when every
value decodes. -/
def decodeAll : List (String × String) → Option (List (String × String))
  | [] => some []
  | kv :: rest =>
    match zodDecodeURIComponent kv.2, decodeAll rest with
    | some v, some d => some ((kv.1, v) :: d)
    | _, _ => none

/-- Value of `this.pathParams` after the constructor: the merged raw captures, decoded by
the zod check; if the check fails the raw value is kept (the source logs
"BUG: Path params zod error" and leaves `this.pathParams` unchanged). -/
def pathParams (routePath : List RouteMatch) : List (String × String) :=
  let raw := rawPathParams routePath
  match decodeAll raw with
  | some d => d
  | none => raw

/-! Section: `readMultipartData` validation (streamer.ts lines 225-251) -/

/-- Modelled from the `@mjackson/multipart-parser` dependency (not part of this
repository): a request content type is a multipart one when its media type
starts with `multipart/`. -/
def isMultipartRequestHeader (ct : String) : Bool :=
  jsStartsWith (toLowerStr ct) "multipart/"

/-- Strip one pair of surrounding double quotes. -/
def stripQuotes (s : String) : String :=
  if 2 ≤ s.data.length ∧ s.data.head? = some '"' ∧ s.data.getLast? = some '"' then
    String.mk (s.data.drop 1).dropLast
  else s

/-- Modelled from the `@mjackson/multipart-parser` dependency: extract the
`boundary` parameter of a content-type header; `none` when the parameter is
absent or empty (the library requires a non-empty boundary value). -/
def getMultipartBoundary (ct : String) : Option String :=
  (ct.splitOn ";").findSome? (fun part =>
    let p := part.trim
    if jsStartsWith (toLowerStr p) "boundary=" then
      let v := stripQuotes (jsSliceFrom p 9)
      if v = "" then none else some v
    else none)

/-- Outcome of the validation prefix of `readMultipartData`: a thrown
`SendError (reason, status)`, or proceeding to iterate the parts. -/
inductive MultipartCheck where
  | fail (reason : String) (status : Nat)
  | proceed (boundary : String)
deriving DecidableEq

/-- The content-type validation of `Streamer.readMultipartData`. -/
def readMultipartDataCheck (contentType : Option String) : MultipartCheck :=
  match contentType with
  | none => .fail "MULTIPART_INVALID_CONTENT_TYPE" 400
  | some ct =>
    if ¬ isMultipartRequestHeader ct then .fail "MULTIPART_INVALID_CONTENT_TYPE" 400
    else
      match getMultipartBoundary ct with
      | none => .fail "MULTIPART_MISSING_BOUNDARY" 400
      | some b => .proceed b

/-! Section: Server-Sent Events (`sendSSE`, streamer.ts lines 482-547) -/

/-- State of the SSE response writer. -/
structure SSEState where
  writableEnded : Bool
  written : List String
deriving DecidableEq

/-- The four candidate fields of one SSE frame, with falsy entries dropped:
`eventName && ...`, the data line, `eventId && ...`, and
`retryMilliseconds && ...` (so a retry of `0` is filtered out by `truthy`). -/
def frameFields (retry : Option Nat) (name dataJson id : String) : List String :=
  List.filterMap (fun x => x)
    [ if name = "" then none else some ("event: " ++ name),
      some ("data: " ++ dataJson),
      if id = "" then none else some ("id: " ++ id),
      match retry with
      | none => none
      | some r => if r = 0 then none else some ("retry: " ++ toString r) ]

/-- One SSE event frame: the surviving fields joined by newlines plus the
terminating blank line. -/
def sseFrame (retry : Option Nat) (name dataJson id : String) : String :=
  String.intercalate "\n" (frameFields retry name dataJson id) ++ "\n\n"

/-- Model of `emitEvent` from `Streamer.sendSSE` (streamer.ts lines 505-523). `dataJson`
stands for `JSON.stringify(eventData)`; the `typeof` checks of the source are
vacuous here because the model is typed. -/
def emitEvent (retry : Option Nat) (st : SSEState) (name dataJson id : String) : Except String SSEState :=
  if name.data.contains '\n' then .error "Event name cannot contain newlines"
  else if id.data.contains '\n' then .error "Event ID cannot contain newlines"
  else if st.writableEnded then .error "Cannot emit event after the stream has ended"
  else .ok { st with written := st.written ++ [sseFrame retry name dataJson id] }

/-- The argument validation at the top of `sendSSE`: a configured retry must be
a non-negative number. -/
def sendSSEAccepts : Option Int → Bool
  | none => true
  | some r => decide (0 ≤ r)

/-! Section: Listener port selection (listeners.ts lines 51-58, index.ts lines 93-114) -/

/-- How the listener binds: `server.listen(undefined, host)` (OS-chosen port) or
`server.listen(n, host)`. -/
inductive BindPort where
  | osChosen
  | fixed (n : Nat)
deriving DecidableEq

/-- Decimal value of a digit string. -/
def digitsToNat (s : String) : Nat :=
  s.data.foldl (fun a c => 10 * a + (c.toNat - 48)) 0

/-- JavaScript `Number(s)` (the unary `+` coercion) on the fragment relevant to
ports: the empty string is `0`, a decimal digit string parses, anything else is
`NaN` (`none`). -/
def jsToNumber (s : String) : Option Nat :=
  if s = "" then some 0
  else if s.data.all (fun c => c.isDigit) then some (digitsToNat s) else none

/-- JavaScript truthiness of the number `+port`: `NaN` and `0` are falsy. -/
def jsNumTruthy : Option Nat → Bool
  | none => false
  | some n => n != 0

/-- The port dispatch of `ListenerBase`'s constructor:
`port === "0"` → OS-chosen; `port && +port` → the parsed port; else 8080. -/
def listenPort (port : String) : BindPort :=
  if port = "0" then .osChosen
  else if port ≠ "" ∧ jsNumTruthy (jsToNumber port) then .fixed ((jsToNumber port).getD 0)
  else .fixed 8080

/-- Port defaulting of `startListening`: `port: e.port ?? process.env.PORT ?? "8080"`. -/
def effectivePort (configPort envPORT : Option String) : String :=
  configPort.getD (envPORT.getD "8080")

/-! Section: Cookies (`setCookie` / `appendHeader`, streamer.ts lines 670-690) -/

/-- Options accepted by `Streamer.setCookie`. `expires` is the
`toUTCString()` rendering of the `Date` (a `Date` object is always truthy). -/
structure CookieOptions where
  domain : Option String
  path : Option String
  expires : Option String
  maxAge : Option Int
  secure : Bool
  httpOnly : Bool
  sameSite : Option String
deriving DecidableEq

/-- The attribute suffix of the cookie string: each `cookie += ...` of the
source contributes its piece exactly when its option is truthy. -/
def cookieAttrs (o : CookieOptions) : String :=
  (match o.domain with
   | some d => if d ≠ "" then "; Domain=" ++ d else ""
   | none => "")
  ++ (match o.path with
      | some p => if p ≠ "" then "; Path=" ++ p else ""
      | none => "")
  ++ (match o.expires with
      | some e => "; Expires=" ++ e
      | none => "")
  ++ (match o.maxAge with
      | some n => if n ≠ 0 then "; Max-Age=" ++ toString n else ""
      | none => "")
  ++ (if o.secure then "; Secure" else "")
  ++ (if o.httpOnly then "; HttpOnly" else "")
  ++ (match o.sameSite with
      | some ss => if ss ≠ "" then "; SameSite=" ++ ss else ""
      | none => "")

/-- The cookie string built by `Streamer.setCookie`. -/
def buildCookie (name value : String) (o : CookieOptions) : String :=
  name ++ "=" ++ encodeURIComponentJS value ++ cookieAttrs o

/-- JavaScript truthiness of a header value (`current ?` in `appendHeader`):
`undefined` and the empty string are falsy, arrays are truthy. -/
def headerTruthy : Option HeaderVal → Bool
  | none => false
  | some (.str s) => s ≠ ""
  | some (.arr _) => true

/-- The value written by `Streamer.appendHeader`: the new value alone, or the
current value with the new one appended. -/
def appendHeaderVal (current : Option HeaderVal) (v : String) : HeaderVal :=
  if headerTruthy current then
    match current with
    | some (.arr ss) => .arr (ss ++ [v])
    | some (.str s) => .arr [s, v]
    | none => .str v
  else .str v

/-- Model of `Streamer.appendHeader` (streamer.ts lines 681-690): reads the current
header value and replaces it with the appended one via `setHeader`. -/
def Streamer.appendHeader (res : ResState) (name value : String) : Except String ResState :=
  if res.headersSent then .error headersSentErrMsg
  else .ok { res with
    headers := jsSetProp res.headers name (appendHeaderVal (alookup name res.headers) value) }

/-- Model of `Streamer.setCookie` (streamer.ts lines 670-679). -/
def Streamer.setCookie (res : ResState) (name value : String) (o : CookieOptions) : Except String ResState :=
  Streamer.appendHeader res "Set-Cookie" (buildCookie name value o)

/-- A demonstration route path for the path-parameter claims: an outer node and
a leaf both capture `name`; the leaf also carries an encoded slash. -/
def demoRoute : List RouteMatch :=
  [ { groups := [("name", "outer"), ("bag", "b%20g")] },
    { groups := [("name", "a%2Fb.txt")] } ]

/-! Section: Lemmas about the JavaScript object / string primitives -/

theorem alookup_eq_none {β : Type} (t : List (String × β)) (k : String)
    (h : k ∉ t.map Prod.fst) : alookup k t = none := by
  induction t with
  | nil => rfl
  | cons hd tl ih =>
    have h1 : hd.1 ≠ k := by
      intro he; exact h (by simp [he])
    have h2 : k ∉ tl.map Prod.fst := fun hc => h (by simp [hc])
    simp [alookup, h1, ih h2]

theorem lookup_map_update {β : Type} (m : List (String × β)) (k : String) (v : β)
    (h : (alookup k m).isSome) :
    alookup k (m.map (fun kv => if kv.1 = k then (k, v) else kv)) = some v := by
  induction m with
  | nil => simp [alookup] at h
  | cons hd t ih =>
    obtain ⟨a, b⟩ := hd
    by_cases hk : a = k
    · subst hk; simp [alookup]
    · have h2 : (alookup k t).isSome := by simpa [alookup, hk] using h
      simpa [alookup, hk] using ih h2

theorem lookup_append_single {β : Type} (m : List (String × β)) (k : String) (v : β)
    (h : alookup k m = none) : alookup k (m ++ [(k, v)]) = some v := by
  induction m with
  | nil => simp [alookup]
  | cons hd t ih =>
    by_cases hk : hd.1 = k
    · simp [alookup, hk] at h
    · have h2 : alookup k t = none := by simpa [alookup, hk] using h
      simpa [alookup, hk] using ih h2

theorem lookup_jsSetProp_self {β : Type} (m : List (String × β)) (k : String) (v : β) :
    alookup k (jsSetProp m k v) = some v := by
  unfold jsSetProp
  by_cases h : (alookup k m).isSome
  · simpa [h] using lookup_map_update m k v h
  · have hn : alookup k m = none := Option.not_isSome_iff_eq_none.mp h
    simpa [h] using lookup_append_single m k v hn

theorem lookup_map_update_other {β : Type} (m : List (String × β)) (k : String) (v : β)
    (k0 : String) (h : k0 ≠ k) :
    alookup k0 (m.map (fun kv => if kv.1 = k then (k, v) else kv)) = alookup k0 m := by
  induction m with
  | nil => rfl
  | cons hd t ih =>
    obtain ⟨a, b⟩ := hd
    by_cases hk : a = k
    · subst hk
      have hne : a ≠ k0 := fun he => h he.symm
      simp [alookup, hne, ih]
    · by_cases hk0 : a = k0
      · subst hk0
        simp [alookup, hk]
      · simp [alookup, hk, hk0, ih]

theorem lookup_append_other {β : Type} (m : List (String × β)) (k : String) (v : β)
    (k0 : String) (h : k0 ≠ k) : alookup k0 (m ++ [(k, v)]) = alookup k0 m := by
  induction m with
  | nil => simp [alookup, Ne.symm h]
  | cons hd t ih =>
    by_cases hk0 : hd.1 = k0 <;> simp [alookup, hk0, ih]

theorem lookup_jsSetProp_other {β : Type} (m : List (String × β)) (k : String) (v : β)
    (k0 : String) (h : k0 ≠ k) : alookup k0 (jsSetProp m k v) = alookup k0 m := by
  unfold jsSetProp
  by_cases hs : (alookup k m).isSome
  · simpa [hs] using lookup_map_update_other m k v k0 h
  · simpa [hs] using lookup_append_other m k v k0 h

theorem listIsPrefix_append_self {α : Type} [DecidableEq α] (l t : List α) :
    listIsPrefix l (l ++ t) = true := by
  induction l with
  | nil => rfl
  | cons a as ih => simpa [listIsPrefix] using ih

theorem listIsPrefix_drop {α : Type} [DecidableEq α] (p : List α) :
    ∀ l : List α, listIsPrefix p l = true → p ++ l.drop p.length = l := by
  induction p with
  | nil => intro l _; simp
  | cons a as ih =>
    intro l h
    cases l with
    | nil => simp [listIsPrefix] at h
    | cons b bs =>
      by_cases hab : a = b
      · subst hab
        have h2 : listIsPrefix as bs = true := by simpa [listIsPrefix] using h
        simpa using ih bs h2
      · simp [listIsPrefix, hab] at h

theorem stringEqOfData {s t : String} (h : s.data = t.data) : s = t := by
  cases s; cases t; exact congrArg String.mk h

theorem dataAppend (s t : String) : (s ++ t).data = s.data ++ t.data := rfl

theorem jsStartsWith_concat (s p : String) (h : jsStartsWith s p = true) :
    p ++ jsSliceFrom s p.length = s := by
  apply stringEqOfData
  rw [dataAppend]
  show p.data ++ s.data.drop p.data.length = s.data
  exact listIsPrefix_drop p.data s.data h

/-! Section: Lemmas about the response state machine -/

theorem setHeadersLoop_ok (hs : List (String × String)) :
    ∀ res : ResState, res.headersSent = false →
      setHeadersLoop res hs = .ok { res with headers := setAll res.headers hs } := by
  induction hs with
  | nil => intro res _; simp [setHeadersLoop, setAll]
  | cons kv t ih =>
    intro res h
    obtain ⟨k, v⟩ := kv
    have hstep : resSetHeader res k v
        = .ok { res with headers := jsSetProp res.headers k (.str v) } := by
      simp [resSetHeader, h]
    simp only [setHeadersLoop, hstep]
    rw [ih _ (by simpa using h)]
    simp [setAll]

theorem writeHead_fresh (s : StreamerState) (status : Nat) (headers : List (String × String))
    (h : s.res.headersSent = false) :
    Streamer.writeHead s status headers = .ok
      { s with
        headersSentBy := some firstAttemptMsg
        res := { s.res with
                 headersSent := true
                 wireStatus := some status
                 wireHeaderWrites := s.res.wireHeaderWrites + 1
                 headers := setAll s.res.headers headers } } := by
  have hc : checkHeadersSentBy s = { s with headersSentBy := some firstAttemptMsg } := by
    unfold checkHeadersSentBy
    simp [h]
  unfold Streamer.writeHead
  rw [hc]
  simp [setHeadersLoop_ok headers s.res h, resWriteHead, h]

/-! Section: Lemmas about path-parameter merging and decoding -/

theorem jsAssign_lookup {β : Type} (e : List (String × β)) :
    ∀ (n : List (String × β)) (k : String), (e.map Prod.fst).Nodup →
      alookup k (jsAssign n e) = firstSome (alookup k e) (alookup k n) := by
  induction e with
  | nil => intro n k _; simp [jsAssign, alookup, firstSome]
  | cons kv t ih =>
    intro n k hnd
    have hnd2 : (kv.1 :: t.map Prod.fst).Nodup := by simpa using hnd
    have hk1 : kv.1 ∉ t.map Prod.fst := (List.nodup_cons.mp hnd2).1
    have hk2 : (t.map Prod.fst).Nodup := (List.nodup_cons.mp hnd2).2
    have hstep : jsAssign n (kv :: t) = jsAssign (jsSetProp n kv.1 kv.2) t := by
      simp [jsAssign]
    rw [hstep, ih _ k hk2]
    by_cases hkk : k = kv.1
    · subst hkk
      have ht : alookup kv.1 t = none := alookup_eq_none t kv.1 hk1
      simp [alookup, ht, firstSome, lookup_jsSetProp_self]
    · rw [lookup_jsSetProp_other _ _ _ _ hkk]
      have hne : kv.1 ≠ k := fun he => hkk he.symm
      simp [alookup, hne]

theorem foldl_jsAssign_lookup (rp : List RouteMatch) :
    ∀ (acc : List (String × String)) (k : String),
      (∀ m ∈ rp, (m.groups.map Prod.fst).Nodup) →
      alookup k (rp.foldl (fun n e => jsAssign n e.groups) acc)
        = firstSome (innermostLookup k rp) (alookup k acc) := by
  induction rp with
  | nil => intro acc k _; simp [innermostLookup, firstSome]
  | cons m t ih =>
    intro acc k hnd
    simp only [List.foldl_cons]
    rw [ih _ k (fun x hx => hnd x (List.mem_cons_of_mem _ hx))]
    rw [jsAssign_lookup m.groups acc k (hnd m (List.mem_cons_self _ _))]
    cases hinn : innermostLookup k t <;> simp [firstSome, innermostLookup, hinn]

theorem decodeAll_lookup (raw : List (String × String))
    (h : ∀ kv ∈ raw, (zodDecodeURIComponent kv.2).isSome) :
    ∃ d, decodeAll raw = some d ∧
      ∀ k, alookup k d = (alookup k raw).bind zodDecodeURIComponent := by
  induction raw with
  | nil => exact ⟨[], rfl, by intro k; simp [alookup]⟩
  | cons kv t ih =>
    have h1 := h kv (List.mem_cons_self _ _)
    obtain ⟨v, hv⟩ := Option.isSome_iff_exists.mp h1
    obtain ⟨d, hd, hlook⟩ := ih (fun x hx => h x (List.mem_cons_of_mem _ hx))
    refine ⟨(kv.1, v) :: d, ?_, ?_⟩
    · simp [decodeAll, hv, hd]
    · intro k
      by_cases hk : kv.1 = k
      · simp only [alookup, hk, if_pos rfl, Option.bind]
        simp [hv]
      · simp [alookup, hk, hlook k]

/-! Section: Lemmas about SSE frames -/

theorem frameFields_pos (r : Nat) (hr : r ≠ 0) (name dataJson id : String) :
    frameFields (some r) name dataJson id
      = frameFields none name dataJson id ++ ["retry: " ++ toString r] := by
  unfold frameFields
  by_cases hn : name = "" <;> by_cases hi : id = "" <;> simp [hn, hi, hr]

/-! Section: Claim theorems -/

/-- C1: for every parsed request with a configured non-empty path prefix,
`Streamer.parseRequest` performs exactly one of three outcomes: a raw URL equal
to the prefix is answered with a 302 redirect to `prefix ++ "/"` and the
request ends; a raw URL that starts with the prefix but is longer proceeds
with the prefix stripped from the state's `url`; any other raw URL is refused
with status 500 and the fixed explanatory body, without routing. -/
theorem c1_parseRequest_trichotomy (url pathPrefix host method : String)
    (hu : jsStartsWith url "/" = true) (hp : pathPrefix ≠ "")
    (hh : host ≠ "") (hm : method ≠ "") :
    (url = pathPrefix ∧
      parseRequest url pathPrefix host method = .redirect 302 (pathPrefix ++ "/"))
    ∨ (url ≠ pathPrefix ∧ jsStartsWith url pathPrefix = true ∧
        pathPrefix ++ jsSliceFrom url pathPrefix.length = url ∧
        parseRequest url pathPrefix host method
          = .proceed (jsSliceFrom url pathPrefix.length))
    ∨ (url ≠ pathPrefix ∧ jsStartsWith url pathPrefix = false ∧
        parseRequest url pathPrefix host method = .refuse 500 (refusalBody pathPrefix)) := by
  by_cases he : url = pathPrefix
  · left
    refine ⟨he, ?_⟩
    subst he
    simp [parseRequest, hu, hp]
  · by_cases hs : jsStartsWith url pathPrefix = true
    · right; left
      refine ⟨he, hs, jsStartsWith_concat url pathPrefix hs, ?_⟩
      simp [parseRequest, parseRequestRest, hu, hp, he, hs, hh, hm]
    · right; right
      refine ⟨he, by simpa using hs, ?_⟩
      simp [parseRequest, hu, hp, he, hs]

/-- C1 witness: the trichotomy evaluated on the request `GET /pre/x` against
the prefix `/pre`, which lands in the proceed branch with `url = "/x"`. -/
theorem c1_witness :
    ("/pre/x" = "/pre" ∧
      parseRequest "/pre/x" "/pre" "example.com" "GET" = .redirect 302 ("/pre" ++ "/"))
    ∨ ("/pre/x" ≠ "/pre" ∧ jsStartsWith "/pre/x" "/pre" = true ∧
        "/pre" ++ jsSliceFrom "/pre/x" ("/pre" : String).length = "/pre/x" ∧
        parseRequest "/pre/x" "/pre" "example.com" "GET"
          = .proceed (jsSliceFrom "/pre/x" ("/pre" : String).length))
    ∨ ("/pre/x" ≠ "/pre" ∧ jsStartsWith "/pre/x" "/pre" = false ∧
        parseRequest "/pre/x" "/pre" "example.com" "GET" = .refuse 500 (refusalBody "/pre")) :=
  c1_parseRequest_trichotomy "/pre/x" "/pre" "example.com" "GET"
    (by decide) (by decide) (by decide) (by decide)

/-- C3: with the zod decode succeeding on every merged capture (JavaScript
regexes reject duplicate group names inside one regex, so each node's group
list has distinct names), every entry of `pathParams` is `decodeURIComponent`
applied exactly once to the raw capture, and a name captured by several nodes
of the matched root-to-leaf path takes the value of the innermost node. -/
theorem c3_pathParams (rp : List RouteMatch)
    (hnd : ∀ m ∈ rp, (m.groups.map Prod.fst).Nodup)
    (hdec : ∀ kv ∈ rawPathParams rp, (zodDecodeURIComponent kv.2).isSome)
    (name : String) :
    alookup name (pathParams rp) = (innermostLookup name rp).bind zodDecodeURIComponent := by
  obtain ⟨d, hd, hlook⟩ := decodeAll_lookup _ hdec
  unfold pathParams
  simp only [hd]
  rw [hlook name]
  unfold rawPathParams
  rw [foldl_jsAssign_lookup rp [] name hnd]
  cases innermostLookup name rp <;> simp [firstSome, alookup]

/-- C3 witness: on a concrete route path where both an outer node and the leaf
capture `name`, the parameter decodes the leaf's capture `a%2Fb.txt` exactly
once to `a/b.txt`. -/
theorem c3_witness : alookup "name" (pathParams demoRoute) = some "a/b.txt" := by
  have h := c3_pathParams demoRoute (by decide) (by decide) "name"
  exact h.trans (by decide)

/-- C4: `readMultipartData` throws the 400 `SendError`
`MULTIPART_INVALID_CONTENT_TYPE` exactly when the content type is absent or
not a multipart type, throws the 400 `SendError` `MULTIPART_MISSING_BOUNDARY`
exactly when the content type is multipart without a boundary parameter, and
otherwise proceeds to iterate the parts with the extracted boundary. -/
theorem c4_multipartCheck (ct : Option String) :
    (readMultipartDataCheck ct = .fail "MULTIPART_INVALID_CONTENT_TYPE" 400 ↔
      ct = none ∨ ∃ s, ct = some s ∧ isMultipartRequestHeader s = false)
    ∧ (readMultipartDataCheck ct = .fail "MULTIPART_MISSING_BOUNDARY" 400 ↔
      ∃ s, ct = some s ∧ isMultipartRequestHeader s = true ∧ getMultipartBoundary s = none)
    ∧ ((∃ b, readMultipartDataCheck ct = .proceed b) ↔
      ∃ s b, ct = some s ∧ isMultipartRequestHeader s = true ∧
        getMultipartBoundary s = some b) := by
  cases ct with
  | none => simp [readMultipartDataCheck]
  | some s =>
    by_cases hm : isMultipartRequestHeader s
    · cases hb : getMultipartBoundary s <;> simp [readMultipartDataCheck, hm, hb]
    · simp [readMultipartDataCheck, hm]

/-- C2 counterexample: on a concrete response, the first `writeHead` succeeds
and records the call site; the second `writeHead` on the same response is
logged together with the recorded first site but is NOT ignored: the attempt
is forwarded to the underlying Node response, which throws
`ERR_HTTP_HEADERS_SENT`, so the call raises instead of returning normally. -/
theorem c2_counterexample :
    Streamer.writeHead initStreamer 200 []
      = .ok ⟨⟨true, some 200, 1, [], [], false⟩, some firstAttemptMsg, []⟩
    ∧ Streamer.writeHead ⟨⟨true, some 200, 1, [], [], false⟩, some firstAttemptMsg, []⟩ 204 []
      = .threw headersSentErrMsg
          ⟨⟨true, some 200, 1, [], [], false⟩, some firstAttemptMsg,
            [firstAttemptMsg, secondAttemptMsg]⟩ := by
  constructor <;> decide

/-- C2 amended: the headers-sent flag transitions from false to true at most
once and exactly one header write reaches the wire. On a fresh response,
`writeHead` sets the flag, performs the single wire write, and records the
call site; once the flag is set, any further `writeHead` logs the recorded
first site and the second-attempt message and then throws (the underlying
response rejects it), leaving the response state otherwise unchanged, so no
second header write reaches the wire. -/
theorem c2_amended (s : StreamerState) (status : Nat) (headers : List (String × String)) :
    (s.res.headersSent = false →
      Streamer.writeHead s status headers = .ok
        { s with
          headersSentBy := some firstAttemptMsg
          res := { s.res with
                   headersSent := true
                   wireStatus := some status
                   wireHeaderWrites := s.res.wireHeaderWrites + 1
                   headers := setAll s.res.headers headers } })
    ∧ (∀ fb, s.res.headersSent = true → s.headersSentBy = some fb →
        Streamer.writeHead s status headers
          = .threw headersSentErrMsg { s with log := s.log ++ [fb, secondAttemptMsg] }) := by
  constructor
  · intro h
    exact writeHead_fresh s status headers h
  · intro fb h hsb
    have hc : checkHeadersSentBy s = { s with log := s.log ++ [fb, secondAttemptMsg] } := by
      unfold checkHeadersSentBy
      simp [h, hsb]
    unfold Streamer.writeHead
    rw [hc]
    cases headers with
    | nil => simp [setHeadersLoop, resWriteHead, h]
    | cons kv t => simp [setHeadersLoop, resSetHeader, h]

/-- C2 witness: the amended theorem evaluated on a fresh response. -/
theorem c2_witness :
    Streamer.writeHead initStreamer 201 [("x-a", "1")]
      = .ok ⟨⟨true, some 201, 1, [("x-a", .str "1")], [], false⟩, some firstAttemptMsg, []⟩ := by
  have h := (c2_amended initStreamer 201 [("x-a", "1")]).1 rfl
  exact h.trans (by decide)

/-- C5 counterexample: `sendSSE` accepts a configured retry of 0, but the
event frame written by `emitEvent` then carries no retry field at all (the
`truthy` filter drops the field built from `retryMilliseconds && ...`),
refuting the claim that every frame has a retry field equal to the configured
value even when it is 0. -/
theorem c5_counterexample :
    sendSSEAccepts (some 0) = true
    ∧ emitEvent (some 0) ⟨false, []⟩ "tick" "1" "" = .ok ⟨false, ["event: tick\ndata: 1\n\n"]⟩
    ∧ containsSubstr "event: tick\ndata: 1\n\n" "retry" = false := by
  refine ⟨rfl, by decide, by decide⟩

/-- C5 amended: `sendSSE` accepts any non-negative retry value, and for a
configured retry value r > 0, every event frame written by `emitEvent` has the
field `retry: r` appended to it; a retry of 0 is accepted but the field is
omitted from the frames. -/
theorem c5_retry_amended (r : Nat) (st : SSEState) (name dataJson id : String)
    (hr : r ≠ 0) (hn : name.data.contains '\n' = false)
    (hi : id.data.contains '\n' = false) (he : st.writableEnded = false) :
    sendSSEAccepts (some (Int.ofNat r)) = true
    ∧ emitEvent (some r) st name dataJson id = .ok
        { st with written := st.written ++
            [String.intercalate "\n"
              (frameFields none name dataJson id ++ ["retry: " ++ toString r]) ++ "\n\n"] } := by
  constructor
  · simp [sendSSEAccepts]
  · unfold emitEvent
    rw [if_neg (by simpa using hn), if_neg (by simpa using hi), if_neg (by simp [he])]
    rw [sseFrame, frameFields_pos r hr]

/-- C5 witness: the amended theorem evaluated at retry 1000 on a fresh SSE
stream. -/
theorem c5_witness :
    sendSSEAccepts (some (Int.ofNat 1000)) = true
    ∧ emitEvent (some 1000) ⟨false, []⟩ "tick" "7" ""
        = .ok ⟨false, ["event: tick\ndata: 7\nretry: 1000\n\n"]⟩ := by
  have h := c5_retry_amended 1000 ⟨false, []⟩ "tick" "7" ""
    (by decide) (by decide) (by decide) (by decide)
  exact ⟨h.1, h.2.trans (by decide)⟩

/-- C6: `emitEvent` throws exactly when the event name contains a newline, the
event id contains a newline, or the stream has already ended; when none of
these holds it writes exactly one event frame and returns normally. (The
`typeof` string checks of the source are vacuous in this typed model.) -/
theorem c6_emitEvent (retry : Option Nat) (st : SSEState) (name dataJson id : String) :
    ((∃ e, emitEvent retry st name dataJson id = .error e) ↔
      (name.data.contains '\n' = true ∨ id.data.contains '\n' = true ∨
        st.writableEnded = true))
    ∧ (name.data.contains '\n' = false → id.data.contains '\n' = false →
        st.writableEnded = false →
        emitEvent retry st name dataJson id
          = .ok { st with written := st.written ++ [sseFrame retry name dataJson id] }) := by
  by_cases hN : '\n' ∈ name.data <;> by_cases hI : '\n' ∈ id.data <;>
    cases hW : st.writableEnded <;> simp [emitEvent, hN, hI, hW]

/-- C6 witness: a valid emit on a fresh stream writes exactly one frame. -/
theorem c6_witness :
    emitEvent none ⟨false, []⟩ "a" "1" "b" = .ok ⟨false, ["event: a\ndata: 1\nid: b\n\n"]⟩ := by
  have h := (c6_emitEvent none ⟨false, []⟩ "a" "1" "b").2 (by decide) (by decide) (by decide)
  exact h.trans (by decide)

/-- C7: on a fresh response, `sendString` sets the `content-length` header to
the byte length of the data in the given encoding, sends the given status,
ends the response without body bytes when the method is `HEAD` and with
exactly the given data otherwise, and returns the stream-ended sentinel. -/
theorem c7_sendString (s : StreamerState) (method : String) (status : Nat)
    (headers : List (String × String)) (data : String) (enc : BufferEncoding)
    (h1 : s.res.headersSent = false) (h2 : s.res.ended = false) :
    alookup "content-length"
        (jsSetProp headers "content-length" (toString (byteLength data enc)))
      = some (toString (byteLength data enc))
    ∧ Streamer.sendString s method status headers data enc = .streamEnded
        { s with
          headersSentBy := some firstAttemptMsg
          res := { s.res with
                   headersSent := true
                   wireStatus := some status
                   wireHeaderWrites := s.res.wireHeaderWrites + 1
                   headers := setAll s.res.headers
                     (jsSetProp headers "content-length" (toString (byteLength data enc)))
                   ended := true
                   body := s.res.body ++ (if method = "HEAD" then [] else [(data, enc)]) } } := by
  refine ⟨lookup_jsSetProp_self headers _ _, ?_⟩
  unfold Streamer.sendString
  simp only [writeHead_fresh s status
    (jsSetProp headers "content-length" (toString (byteLength data enc))) h1]
  by_cases hm : method = "HEAD" <;> simp [hm, resEnd, h2]

/-- C7 witness: `sendString` on a fresh response for a `GET` request. -/
theorem c7_witness :
    Streamer.sendString initStreamer "GET" 200 [] "hi" .utf8
      = .streamEnded ⟨⟨true, some 200, 1, [("content-length", .str "2")], [("hi", .utf8)], true⟩,
          some firstAttemptMsg, []⟩ := by
  have h := (c7_sendString initStreamer "GET" 200 [] "hi" .utf8 rfl rfl).2
  exact h.trans (by decide)

/-- C8 counterexample: with the environment variable `PORT` set to `"9000"`, a
listener configuration with a missing port binds 9000, not 8080
(`startListening` applies `e.port ?? process.env.PORT ?? "8080"`), refuting
the claim that a missing port always yields 8080. -/
theorem c8_counterexample :
    listenPort (effectivePort none (some "9000")) = .fixed 9000
    ∧ BindPort.fixed 9000 ≠ BindPort.fixed 8080 := by
  constructor <;> decide

/-- C8 amended: the configured string "0" yields an OS-chosen port; any other
string that parses to a nonzero number yields that parsed port; a string that
does not parse yields 8080; a missing port falls back to the `PORT`
environment variable when set (and is then handled by the same rules), and
with no `PORT` a missing port yields 8080. -/
theorem c8_amended :
    (∀ env : Option String, listenPort (effectivePort (some "0") env) = .osChosen)
    ∧ (∀ (env : Option String) (s : String) (n : Nat),
        s ≠ "0" → jsToNumber s = some n → n ≠ 0 →
        listenPort (effectivePort (some s) env) = .fixed n)
    ∧ (∀ s : String, jsToNumber s = none → listenPort s = .fixed 8080)
    ∧ (∀ env : Option String, effectivePort none env = env.getD "8080")
    ∧ listenPort (effectivePort none none) = .fixed 8080 := by
  refine ⟨?_, ?_, ?_, ?_, by decide⟩
  · intro env
    rfl
  · intro env s n hs hn hnz
    have hse : s ≠ "" := by
      intro h0
      rw [h0] at hn
      have h00 : (0 : Nat) = n := by simpa [jsToNumber] using hn
      exact hnz h00.symm
    show listenPort s = .fixed n
    unfold listenPort
    rw [if_neg hs]
    rw [if_pos (show s ≠ "" ∧ jsNumTruthy (jsToNumber s) = true from
      ⟨hse, by rw [hn]; simpa [jsNumTruthy] using hnz⟩)]
    rw [hn]
    rfl
  · intro s hnone
    have hs0 : s ≠ "0" := by
      intro h0
      rw [h0] at hnone
      exact absurd hnone (by decide)
    unfold listenPort
    rw [if_neg hs0]
    rw [if_neg (fun hc => by
      rw [hnone] at hc
      exact absurd hc.2 (by simp [jsNumTruthy]))]
  · intro env
    cases env <;> rfl

/-- C8 witness: the amended theorem's parsed-port clause evaluated at the
configured port "3000". -/
theorem c8_witness : listenPort (effectivePort (some "3000") none) = .fixed 3000 :=
  c8_amended.2.1 none "3000" 3000 (by decide) (by decide) (by decide)

/-- C10: `setCookie` builds `name=encodeURIComponent(value)` followed by the
attribute pieces of the truthy options only and appends the result to the
`Set-Cookie` header; in particular a `maxAge` of 0 is falsy, so the cookie
string is identical to the one with no `maxAge` at all (no `Max-Age`
attribute, rather than `Max-Age=0`). -/
theorem c10_setCookie (res : ResState) (name value : String) (o : CookieOptions)
    (hsent : res.headersSent = false) (hma : o.maxAge = some 0) :
    buildCookie name value o = buildCookie name value { o with maxAge := none }
    ∧ jsStartsWith (buildCookie name value o) (name ++ "=" ++ encodeURIComponentJS value) = true
    ∧ Streamer.setCookie res name value o = .ok
        { res with headers := jsSetProp res.headers "Set-Cookie"
                                (appendHeaderVal (alookup "Set-Cookie" res.headers)
                                  (buildCookie name value o)) } := by
  refine ⟨?_, ?_, ?_⟩
  · unfold buildCookie cookieAttrs
    simp [hma]
  · unfold buildCookie jsStartsWith
    rw [dataAppend]
    exact listIsPrefix_append_self _ _
  · unfold Streamer.setCookie Streamer.appendHeader
    simp [hsent]

/-- C10 witness: a cookie with `maxAge` 0 and a value needing encoding renders
with the encoded value and without any `Max-Age` attribute. -/
theorem c10_witness :
    buildCookie "sid" "a b" ⟨none, none, none, some 0, false, false, none⟩ = "sid=a%20b" := by
  have h := (c10_setCookie initRes "sid" "a b"
    ⟨none, none, none, some 0, false, false, none⟩ rfl rfl).1
  exact h.trans (by decide)
